import Mathlib

/-!
Verification of the `test_module` SpacetimeDB module
(src/test_module/src/lib.rs): one persisted `Person` table and two
reducers, `add_person` and `say_hello`. The reducers are embedded
directly from the source; the host-managed table store (durable rows,
auto-increment id assignment, capacity failures) is not part of this
repository, so it is modelled from the spec, as marked below.
-/

/-- Embedded from src/test_module/src/lib.rs, lines 3-10: one row of the
Person table. In the source `id` is a `u64` primary key with auto_inc,
`name` a `String`, `age` a `u32`. The module performs no arithmetic on
either integer field, so both are modelled as `Nat`. -/
structure Person where
  id : Nat
  name : String
  age : Nat
deriving Repr, DecidableEq

/-- Modelled from the spec: the host-managed persisted Person table
together with the auto-increment counter the host uses to assign fresh
ids. The storage engine itself is external to this repository. -/
structure PersonTable where
  rows : List Person
  nextId : Nat
deriving Repr, DecidableEq

/-- Modelled from the spec: the empty table the deployment starts from.
The auto-increment counter starts at 1. -/
def PersonTable.empty : PersonTable :=
  { rows := [], nextId := 1 }

/-- Modelled from the spec: host-level insertion into the Person table.
The caller-supplied `id` is a placeholder: it is ignored and overwritten
with the fresh value of the monotonic counter. `cap` is the host-imposed
row limit; when it is reached the host signals a capacity failure and
the table is left untouched. On success the stored row is appended and
the counter advances. -/
def hostInsert (cap : Nat) (t : PersonTable) (p : Person) :
    Except String (PersonTable × Person) :=
  if t.rows.length < cap then
    let stored : Person := { p with id := t.nextId }
    Except.ok ({ rows := t.rows ++ [stored], nextId := t.nextId + 1 }, stored)
  else
    Except.error "capacity"

/-- Embedded from src/test_module/src/lib.rs, lines 12-15: `add_person`
constructs `Person { id: 0, name, age }` and inserts it through the
host's table handle, discarding the returned row. -/
def add_person (cap : Nat) (t : PersonTable) (name : String) (age : Nat) :
    Except String PersonTable :=
  match hostInsert cap t { id := 0, name := name, age := age } with
  | Except.ok (t2, _) => Except.ok t2
  | Except.error e => Except.error e

/-- Modelled from the spec: one host-mediated call to `add_person`. A
failed call is surfaced to the caller as `false` and, the insertion
being all-or-nothing, leaves the table exactly as it was. -/
def callAddPerson (cap : Nat) (t : PersonTable) (name : String) (age : Nat) :
    PersonTable × Bool :=
  match add_person cap t name age with
  | Except.ok t2 => (t2, true)
  | Except.error _ => (t, false)

/-- Embedded from src/test_module/src/lib.rs, lines 17-20: `say_hello`
emits the single informational log line "Hello from SpacetimeDB!" and
touches nothing else. The reducer body contains no fallible operation,
so the call always returns `Except.ok`. -/
def say_hello (t : PersonTable) : Except String (PersonTable × List String) :=
  Except.ok (t, ["Hello from SpacetimeDB!"])

/-- Run a sequence of `add_person` calls, in order, from a given table
state; a failed call contributes nothing. -/
def runAdds (cap : Nat) : List (String × Nat) → PersonTable → PersonTable
  | [], t => t
  | (n, a) :: rest, t => runAdds cap rest (callAddPerson cap t n a).1

/-- Run `say_hello` a given number of times from a given table state. -/
def runHellos : Nat → PersonTable → PersonTable
  | 0, t => t
  | Nat.succ k, t =>
      match say_hello t with
      | Except.ok (t2, _) => runHellos k t2
      | Except.error _ => t

/-- Every stored id is strictly below the auto-increment counter. -/
def idsBounded (t : PersonTable) : Prop :=
  ∀ p ∈ t.rows, p.id < t.nextId

/-- Stored ids are strictly increasing in insertion order. -/
def idsSorted (t : PersonTable) : Prop :=
  (t.rows.map Person.id).Pairwise (· < ·)

/-- The table invariant maintained by the host's id assignment. -/
def TableInv (t : PersonTable) : Prop :=
  idsBounded t ∧ idsSorted t

theorem empty_inv : TableInv PersonTable.empty := by
  constructor
  · intro p hp
    simp [PersonTable.empty] at hp
  · simp [idsSorted, PersonTable.empty]

theorem add_person_ok (cap : Nat) (t : PersonTable) (name : String) (age : Nat)
    (h : t.rows.length < cap) :
    add_person cap t name age =
      Except.ok { rows := t.rows ++ [{ id := t.nextId, name := name, age := age }],
                  nextId := t.nextId + 1 } := by
  simp [add_person, hostInsert, h]

theorem add_person_err (cap : Nat) (t : PersonTable) (name : String) (age : Nat)
    (h : ¬ t.rows.length < cap) :
    add_person cap t name age = Except.error "capacity" := by
  simp [add_person, hostInsert, h]

theorem callAddPerson_ok (cap : Nat) (t : PersonTable) (name : String) (age : Nat)
    (h : t.rows.length < cap) :
    callAddPerson cap t name age =
      ({ rows := t.rows ++ [{ id := t.nextId, name := name, age := age }],
         nextId := t.nextId + 1 }, true) := by
  simp [callAddPerson, add_person_ok cap t name age h]

theorem callAddPerson_err (cap : Nat) (t : PersonTable) (name : String) (age : Nat)
    (h : ¬ t.rows.length < cap) :
    callAddPerson cap t name age = (t, false) := by
  simp [callAddPerson, add_person_err cap t name age h]

theorem callAddPerson_inv (cap : Nat) (t : PersonTable) (name : String) (age : Nat)
    (h : TableInv t) : TableInv (callAddPerson cap t name age).1 := by
  by_cases hc : t.rows.length < cap
  · rw [callAddPerson_ok cap t name age hc]
    constructor
    · intro p hp
      simp only [List.mem_append, List.mem_singleton] at hp
      rcases hp with hp | hp
      · exact Nat.lt_succ_of_lt (h.1 p hp)
      · subst hp
        exact Nat.lt_succ_self _
    · unfold idsSorted
      simp only [List.map_append, List.map_cons, List.map_nil]
      rw [List.pairwise_append]
      refine ⟨h.2, List.pairwise_singleton _ _, ?_⟩
      intro a ha b hb
      simp only [List.mem_singleton] at hb
      subst hb
      rcases List.mem_map.mp ha with ⟨p, hp, rfl⟩
      exact h.1 p hp
  · rw [callAddPerson_err cap t name age hc]
    exact h

theorem runAdds_inv (cap : Nat) (calls : List (String × Nat)) (t : PersonTable)
    (h : TableInv t) : TableInv (runAdds cap calls t) := by
  induction calls generalizing t with
  | nil => exact h
  | cons c rest ih =>
      obtain ⟨n, a⟩ := c
      exact ih _ (callAddPerson_inv cap t n a h)

/-- Claim C1: a successful call to add_person increases the Person
table's row count by exactly one: the new state is the old rows with
exactly one appended record that was not present before, so no existing
record is removed or changed. -/
theorem C1_add_person_adds_one_row (cap : Nat) (t t' : PersonTable)
    (name : String) (age : Nat) (hInv : TableInv t)
    (h : add_person cap t name age = Except.ok t') :
    t'.rows.length = t.rows.length + 1 ∧
    ∃ p, t'.rows = t.rows ++ [p] ∧ p ∉ t.rows := by
  by_cases hc : t.rows.length < cap
  · rw [add_person_ok cap t name age hc] at h
    injection h with h
    subst h
    refine ⟨by simp, { id := t.nextId, name := name, age := age }, rfl, ?_⟩
    intro hmem
    exact absurd (hInv.1 _ hmem) (Nat.lt_irrefl _)
  · rw [add_person_err cap t name age hc] at h
    simp at h

/-- Witness for C1 at a concrete input. -/
theorem C1_add_person_adds_one_row_witness :
    TableInv PersonTable.empty ∧
    add_person 4 PersonTable.empty "Ada" 30 =
      Except.ok { rows := [{ id := 1, name := "Ada", age := 30 }], nextId := 2 } ∧
    (({ rows := [{ id := 1, name := "Ada", age := 30 }], nextId := 2 } :
        PersonTable).rows.length = PersonTable.empty.rows.length + 1 ∧
     ∃ p, ({ rows := [{ id := 1, name := "Ada", age := 30 }], nextId := 2 } :
        PersonTable).rows = PersonTable.empty.rows ++ [p] ∧
        p ∉ PersonTable.empty.rows) :=
  ⟨empty_inv, rfl,
    C1_add_person_adds_one_row 4 PersonTable.empty _ "Ada" 30 empty_inv rfl⟩

/-- Claim C2: after any sequence of add_person calls from the empty
table the stored records have pairwise-distinct ids; since no record is
ever removed, no id is ever assigned to two records in the table's
lifetime. -/
theorem C2_ids_pairwise_distinct (cap : Nat) (calls : List (String × Nat)) :
    ((runAdds cap calls PersonTable.empty).rows.map Person.id).Nodup := by
  have h := (runAdds_inv cap calls PersonTable.empty empty_inv).2
  unfold idsSorted at h
  exact List.Pairwise.imp (fun hab => Nat.ne_of_lt hab) h

/-- Claim C3: the id supplied to the host insertion is a placeholder
that is ignored and overwritten: the outcome of hostInsert does not
depend on the supplied id field, and the record actually stored always
carries the host counter value as its id. -/
theorem C3_supplied_id_ignored (cap : Nat) (t : PersonTable) (p q : Person)
    (hn : p.name = q.name) (ha : p.age = q.age) :
    hostInsert cap t p = hostInsert cap t q ∧
    ∀ t' s, hostInsert cap t p = Except.ok (t', s) → s.id = t.nextId := by
  constructor
  · cases p; cases q
    simp only at hn ha
    subst hn; subst ha
    simp [hostInsert]
  · intro t' s h
    simp only [hostInsert] at h
    split at h
    · simp only [Except.ok.injEq, Prod.mk.injEq] at h
      rw [← h.2]
    · simp at h

/-- Witness for C3 at a concrete input. -/
theorem C3_supplied_id_ignored_witness :
    (Person.mk 99 "Ada" 30).name = (Person.mk 0 "Ada" 30).name ∧
    (Person.mk 99 "Ada" 30).age = (Person.mk 0 "Ada" 30).age ∧
    (hostInsert 4 PersonTable.empty (Person.mk 99 "Ada" 30)
        = hostInsert 4 PersonTable.empty (Person.mk 0 "Ada" 30) ∧
     ∀ t' s, hostInsert 4 PersonTable.empty (Person.mk 99 "Ada" 30)
        = Except.ok (t', s) → s.id = PersonTable.empty.nextId) :=
  ⟨rfl, rfl, C3_supplied_id_ignored 4 PersonTable.empty (Person.mk 99 "Ada" 30)
      (Person.mk 0 "Ada" 30) rfl rfl⟩

/-- Claim C4: across successive successful insertions the host-assigned
ids are monotonically increasing: in the row list, which is in insertion
order, every later record has a strictly greater id than every earlier
one. -/
theorem C4_ids_strictly_increasing (cap : Nat) (calls : List (String × Nat)) :
    ((runAdds cap calls PersonTable.empty).rows.map Person.id).Pairwise (· < ·) := by
  have h := (runAdds_inv cap calls PersonTable.empty empty_inv).2
  unfold idsSorted at h
  exact h

/-- Claim C5: add_person accepts every name and age in its declared
domain: when the host has capacity the call succeeds for every input and
stores the caller-supplied name and age unchanged; in particular
add_person "" 0 succeeds and stores name = "" and age = 0. -/
theorem C5_accepts_all_inputs (cap : Nat) (t : PersonTable)
    (h : t.rows.length < cap) :
    (∀ name age, ∃ t', add_person cap t name age = Except.ok t' ∧
        t'.rows = t.rows ++ [{ id := t.nextId, name := name, age := age }]) ∧
    add_person cap t "" 0 =
      Except.ok { rows := t.rows ++ [{ id := t.nextId, name := "", age := 0 }],
                  nextId := t.nextId + 1 } :=
  ⟨fun name age => ⟨_, add_person_ok cap t name age h, rfl⟩,
   add_person_ok cap t "" 0 h⟩

/-- Witness for C5 at a concrete input. -/
theorem C5_accepts_all_inputs_witness :
    PersonTable.empty.rows.length < 1 ∧
    ((∀ name age, ∃ t', add_person 1 PersonTable.empty name age = Except.ok t' ∧
        t'.rows = [{ id := 1, name := name, age := age }]) ∧
     add_person 1 PersonTable.empty "" 0 =
       Except.ok { rows := [{ id := 1, name := "", age := 0 }], nextId := 2 }) :=
  ⟨by decide, C5_accepts_all_inputs 1 PersonTable.empty (by decide)⟩

/-- Claim C6: no uniqueness constraint on name or age: calling
add_person twice with the same (name, age) succeeds both times and
yields two distinct stored records that agree on name and age and
differ only in their id. -/
theorem C6_duplicates_permitted (cap : Nat) (t : PersonTable)
    (name : String) (age : Nat) (h : t.rows.length + 1 < cap) :
    ∃ t1 t2 p1 p2,
      add_person cap t name age = Except.ok t1 ∧
      add_person cap t1 name age = Except.ok t2 ∧
      t2.rows = t.rows ++ [p1, p2] ∧
      p1.name = p2.name ∧ p1.age = p2.age ∧ p1.id ≠ p2.id := by
  have h1 : t.rows.length < cap := Nat.lt_of_succ_lt h
  have e1 := add_person_ok cap t name age h1
  have h2 : ({ rows := t.rows ++ [{ id := t.nextId, name := name, age := age }],
               nextId := t.nextId + 1 } : PersonTable).rows.length < cap := by
    simpa using h
  have e2 := add_person_ok cap _ name age h2
  refine ⟨_, _, { id := t.nextId, name := name, age := age },
          { id := t.nextId + 1, name := name, age := age },
          e1, e2, by simp, rfl, rfl, by simp⟩

/-- Witness for C6 at a concrete input. -/
theorem C6_duplicates_permitted_witness :
    PersonTable.empty.rows.length + 1 < 3 ∧
    (∃ t1 t2 p1 p2,
      add_person 3 PersonTable.empty "Ada" 30 = Except.ok t1 ∧
      add_person 3 t1 "Ada" 30 = Except.ok t2 ∧
      t2.rows = PersonTable.empty.rows ++ [p1, p2] ∧
      p1.name = p2.name ∧ p1.age = p2.age ∧ p1.id ≠ p2.id) :=
  ⟨by decide, C6_duplicates_permitted 3 PersonTable.empty "Ada" 30 (by decide)⟩

/-- Claim C7: say_hello leaves the Person table unchanged for every
prior state and every number of calls, and performs no read of the
table: the messages it emits are the same for every table state. -/
theorem C7_say_hello_frame (t : PersonTable) (n : Nat) :
    runHellos n t = t ∧
    ∀ t1 t2 : PersonTable,
      Except.map Prod.snd (say_hello t1) = Except.map Prod.snd (say_hello t2) := by
  constructor
  · induction n with
    | zero => rfl
    | succ k ih => simpa [runHellos, say_hello] using ih
  · intro t1 t2
    rfl

/-- Claim C8: say_hello always succeeds: for every prior table state the
call returns normally with an Except.ok result; no failure condition
exists in its body. -/
theorem C8_say_hello_always_succeeds (t : PersonTable) :
    ∃ out, say_hello t = Except.ok out :=
  ⟨(t, ["Hello from SpacetimeDB!"]), rfl⟩

/-- Claim C9: add_person is atomic on failure: when the host signals a
capacity failure the call reports the failure to the caller and the
observed table afterwards is exactly the table before the call. -/
theorem C9_failure_is_atomic (cap : Nat) (t : PersonTable)
    (name : String) (age : Nat) (h : ¬ t.rows.length < cap) :
    add_person cap t name age = Except.error "capacity" ∧
    callAddPerson cap t name age = (t, false) :=
  ⟨add_person_err cap t name age h, callAddPerson_err cap t name age h⟩

/-- Witness for C9 at a concrete input. -/
theorem C9_failure_is_atomic_witness :
    ¬ PersonTable.empty.rows.length < 0 ∧
    (add_person 0 PersonTable.empty "Ada" 30 = Except.error "capacity" ∧
     callAddPerson 0 PersonTable.empty "Ada" 30 = (PersonTable.empty, false)) :=
  ⟨by decide, C9_failure_is_atomic 0 PersonTable.empty "Ada" 30 (by decide)⟩

/-- Claim C10: every call to say_hello emits exactly one informational
message, whose text is exactly "Hello from SpacetimeDB!", independent of
the prior table state. -/
theorem C10_say_hello_message (t : PersonTable) :
    say_hello t = Except.ok (t, ["Hello from SpacetimeDB!"]) := rfl
